import Mathlib

/-!
# IELog: the console logger and the self-logging result type

A shallow embedding of `IELog.h`.

* Standard output is explicit state: a procedure is a function from the text
  written so far to an `Outcome`, which either returns a value together with
  the new text, ends the process through `abort`, or leaves the behaviour of
  the program undefined.
* A NUL-terminated `const char*` is the `String` of the characters before its
  terminator; a pointer that may be null is an `Option String`.
* `printf` and `vprintf` are the C library's; their model covers the
  conversions this header and its callers use (`%s`, `%d`, `%%`) and reports
  the cases the C standard leaves undefined.
-/

/-! ## The C library -/

/-- Result of running a procedure that writes to standard output. -/
inductive Outcome (α : Type) where
  /-- Normal return with a value; `stdout` is everything written so far. -/
  | returned (value : α) (stdout : String)
  /-- The process ended through `abort()`; `stdout` is what had been written
  to the stream by then (flushing is the stream's business). -/
  | aborted (stdout : String)
  /-- The C standard gives the execution no meaning (undefined behaviour). -/
  | undefined
  /-- Well-defined C that lies outside the conversions modelled here. -/
  | unmodelled
  deriving DecidableEq, Repr

/-- Procedure with access to standard output. -/
abbrev Proc (α : Type) : Type := String → Outcome α

/-- Sequencing: the second procedure runs only when the first returns. -/
def Proc.bind {α β : Type} (p : Proc α) (k : α → Proc β) : Proc β :=
  fun out =>
    match p out with
    | .returned a out1 => k a out1
    | .aborted out1 => .aborted out1
    | .undefined => .undefined
    | .unmodelled => .unmodelled

/-- Return a value without touching standard output. -/
def Proc.pure {α : Type} (a : α) : Proc α :=
  fun out => .returned a out

instance : Monad Proc where
  pure := Proc.pure
  bind := Proc.bind

/-- C library `abort()`: the process ends, nothing is returned. -/
def abort {α : Type} : Proc α :=
  fun out => .aborted out

/-- One variadic argument of a `printf`-family call. -/
inductive Arg where
  /-- An `int`. -/
  | int (n : Int)
  /-- A `const char*`; `none` is the null pointer. -/
  | str (p : Option String)
  deriving DecidableEq, Repr

/-- Result of expanding a format string against its arguments. -/
inductive Formatted where
  | text (body : List Char)
  | undefined
  | unmodelled
  deriving DecidableEq, Repr

/-- Put already produced characters in front of the rest of the expansion. -/
def Formatted.prepend (pre : List Char) : Formatted → Formatted
  | .text body => .text (pre ++ body)
  | .undefined => .undefined
  | .unmodelled => .unmodelled

/-- Decimal text of an `int`, as `%d` prints it. -/
def decimal (n : Int) : List Char :=
  if n < 0 then '-' :: (Nat.toDigits 10 n.natAbs) else Nat.toDigits 10 n.toNat

/-- Expansion of a format string (C11 7.21.6.1).  Ordinary characters are
copied.  `%%` writes one `%` and takes no argument.  Any other `%` starts a
conversion that needs an argument (or is not a conversion at all), so with no
argument left the behaviour is undefined, as it is for an argument of the
wrong type and for a null pointer given to `%s` (which some C libraries print
as `(null)`).  Arguments left over at the end of the format are ignored. -/
def vformat : List Char → List Arg → Formatted
  | [], _ => .text []
  | c :: rest, args =>
    if c ≠ '%' then (vformat rest args).prepend [c]
    else
      match rest, args with
      | [], _ => .undefined
      | d :: rest1, args =>
        if d = '%' then (vformat rest1 args).prepend ['%']
        else
          match args with
          | [] => .undefined
          | a :: args1 =>
            if d = 's' then
              match a with
              | .str (some s) => (vformat rest1 args1).prepend s.data
              | .str none => .undefined
              | .int _ => .undefined
            else if d = 'd' then
              match a with
              | .int n => (vformat rest1 args1).prepend (decimal n)
              | .str _ => .undefined
            else .unmodelled

/-- C library `vprintf`: append the expansion of `Format` to standard output. -/
def vprintf (Format : String) (Args : List Arg) : Proc Unit :=
  fun out =>
    match vformat Format.data Args with
    | .text body => .returned () (out ++ String.mk body)
    | .undefined => .undefined
    | .unmodelled => .unmodelled

/-- C library `printf`; the variadic arguments are passed as a list. -/
def printf (Format : String) (Args : List Arg) : Proc Unit :=
  vprintf Format Args

/-- `std::string::c_str()` read as a C string: the characters before the first
NUL (a `std::string` may hold NUL characters, a C string ends at the first). -/
def c_str (s : String) : String :=
  String.mk (s.data.takeWhile (fun c => c ≠ Char.ofNat 0))

/-! ## `namespace Private`: the logger -/

namespace Private

def ColorSpecifierReset : String := "\x1b[0m"
def ColorSpecifierRed : String := "\x1b[31m"
def ColorSpecifierGreen : String := "\x1b[32m"
def ColorSpecifierYellow : String := "\x1b[33m"

/-- The `switch (LogLevel)` of `Private::IELog`: the values of `ColorCode` and
`LevelString` after it.  Both start as `nullptr` and the `default` label
assigns neither. -/
def levelDecoration (LogLevel : Int) : Option String × Option String :=
  if LogLevel = -1 then (some ColorSpecifierRed, some "Error")
  else if LogLevel = 0 then (some ColorSpecifierReset, some "Log")
  else if LogLevel = 1 then (some ColorSpecifierGreen, some "Success")
  else if LogLevel = 2 then (some ColorSpecifierYellow, some "Warning")
  else (none, none)

/-- `Private::IELog(LogLevel, FuncName, Format, ...)`. -/
def IELog (LogLevel : Int) (FuncName : String) (Format : String) (Args : List Arg) :
    Proc Unit := do
  let ColorCode := (levelDecoration LogLevel).1
  let LevelString := (levelDecoration LogLevel).2
  printf "%sIELog %s: " [.str ColorCode, .str LevelString]
  vprintf Format Args
  printf " [%s]%s\n" [.str (some FuncName), .str (some ColorSpecifierReset)]

end Private

/-- The part of `std::source_location` the header reads.  What
`function_name()` holds for a given function is implementation-defined; here
it is whatever string the location carries. -/
structure SourceLocation where
  file_name : String
  line : Nat
  column : Nat
  function_name : String
  deriving DecidableEq, Repr

/-- The macro `IELOG_ERROR(Format, ...)` expanded at the location `here`. -/
def IELOG_ERROR (here : SourceLocation) (Format : String) (Args : List Arg) : Proc Unit :=
  Private.IELog (-1) here.function_name Format Args

/-- The macro `IELOG_INFO(Format, ...)` expanded at the location `here`. -/
def IELOG_INFO (here : SourceLocation) (Format : String) (Args : List Arg) : Proc Unit :=
  Private.IELog 0 here.function_name Format Args

/-- The macro `IELOG_SUCCESS(Format, ...)` expanded at the location `here`. -/
def IELOG_SUCCESS (here : SourceLocation) (Format : String) (Args : List Arg) : Proc Unit :=
  Private.IELog 1 here.function_name Format Args

/-- The macro `IELOG_WARNING(Format, ...)` expanded at the location `here`. -/
def IELOG_WARNING (here : SourceLocation) (Format : String) (Args : List Arg) : Proc Unit :=
  Private.IELog 2 here.function_name Format Args

/-! ## `struct IEResult` -/

/-- A default-constructed `std::source_location`. -/
def SourceLocation.unspecified : SourceLocation := ⟨"", 0, 0, ""⟩

/-- `struct IEResult`.  `Type_` is the member `Type` as its underlying
`int16_t` (`static_cast` reaches every value, named or not); the code only
compares it, so it is an `Int` and the theorems hold for every integer. -/
structure IEResult where
  Type_ : Int
  Message : String
  CallerContext : SourceLocation
  deriving DecidableEq, Repr

namespace IEResult

def NotSupported : Int := -3
def OutOfMemory : Int := -2
def Fail : Int := -1
def Unknown : Int := 0
def Success : Int := 1
def InvalidArgument : Int := 2
def Unimplemented : Int := 3

/-- The two `explicit` constructors, selected by `ENABLE_IE_RESULT_LOGGING`.
The one of the silent build initialises `Type` only: `Message` keeps its
default member initialiser and `CallerContext` is default-constructed. -/
def construct (ENABLE_IE_RESULT_LOGGING : Bool) (_Type : Int) (_Message : String)
    (_CallerContext : SourceLocation) : IEResult :=
  if ENABLE_IE_RESULT_LOGGING then ⟨_Type, _Message, _CallerContext⟩
  else ⟨_Type, "", SourceLocation.unspecified⟩

/-- `IEResult::operator==`. -/
def operatorEq (self OtherResult : IEResult) : Proc Bool :=
  pure (self.Type_ == OtherResult.Type_)

/-- `IEResult::operator!=`. -/
def operatorNe (self OtherResult : IEResult) : Proc Bool := do
  let eq ← operatorEq self OtherResult
  pure (!eq)

/-- `IEResult::operator bool`, for either setting of
`ENABLE_IE_RESULT_LOGGING`. -/
def operatorBool (ENABLE_IE_RESULT_LOGGING : Bool) (self : IEResult) : Proc Bool :=
  if self.Type_ ≤ 0 then do
    if ENABLE_IE_RESULT_LOGGING then
      Private.IELog (-1) self.CallerContext.function_name (c_str self.Message) []
    abort
  else if self.Type_ > 1 then do
    if ENABLE_IE_RESULT_LOGGING then
      Private.IELog 2 self.CallerContext.function_name (c_str self.Message) []
    pure false
  else do
    if ENABLE_IE_RESULT_LOGGING then
      Private.IELog 1 self.CallerContext.function_name (c_str self.Message) []
    pure true

end IEResult

/-! ## `IEAssert` -/

/-- The `assert` of `<cassert>` on an expression with side effects: nothing at
all under `NDEBUG`, otherwise the expression is evaluated and a false value
ends the process. -/
def assert (NDEBUG : Bool) (Expression : Proc Bool) : Proc Unit :=
  if NDEBUG then pure ()
  else do
    let holds ← Expression
    if holds then pure () else abort

/-- The macro `IEAssert(Expression)`: `(assert(Expression), Expression)` when
`ENABLE_IE_ASSERT` is defined, `(Expression)` otherwise.  The macro argument
is substituted textually, so each occurrence is an evaluation. -/
def IEAssert (ENABLE_IE_ASSERT NDEBUG : Bool) (Expression : Proc Bool) : Proc Bool :=
  if ENABLE_IE_ASSERT then do
    assert NDEBUG Expression
    Expression
  else Expression

/-! ## Use sites -/

/-- Two coercions of one result in a row, as in `bool a = r; bool b = r;`:
`operator bool` is `const`, so both read the same object. -/
def coerceTwice (ENABLE_IE_RESULT_LOGGING : Bool) (r : IEResult) : Proc (Bool × Bool) := do
  let first ← IEResult.operatorBool ENABLE_IE_RESULT_LOGGING r
  let second ← IEResult.operatorBool ENABLE_IE_RESULT_LOGGING r
  pure (first, second)

/-! ## Specification-side definitions -/

/-- The output line of the specification (section 6), for a colour escape, a
level label, a message body and a function name:
`<ColorEscape>IELog <Level>: <FormattedMessage> [<FunctionName>]<ResetEscape>\n`. -/
def logLine (color label body FuncName : String) : String :=
  color ++ "IELog " ++ label ++ ": " ++ body ++ " [" ++ FuncName ++ "]" ++ "\x1b[0m" ++ "\n"

/-- The coercion of the silent build in the specification's words (section
4.2): "a pure function of code with no side effects and a simplified
three-branch return: fatal→terminate, success→true, else→false", fatal being
the codes `≤ 0` and success the code `1`. -/
def silentCoercion (code : Int) : Proc Bool :=
  fun out =>
    if code ≤ 0 then .aborted out
    else if code = 1 then .returned true out
    else .returned false out

/-- Erase what a run wrote: the same return value or termination, with
standard output put back to `out`. -/
def Outcome.withStdout {α : Type} (out : String) : Outcome α → Outcome α
  | .returned a _ => .returned a out
  | .aborted _ => .aborted out
  | .undefined => .undefined
  | .unmodelled => .unmodelled

/-! ## Sequencing lemmas -/

/-- When the first procedure returns, the second runs on its output. -/
theorem Proc.bind_returned {α β : Type} (p : Proc α) (k : α → Proc β) (out out1 : String) (a : α)
    (h : p out = .returned a out1) : (p >>= k) out = k a out1 := by
  show Proc.bind p k out = _
  simp [Proc.bind, h]

/-- Undefined behaviour in the first procedure is undefined behaviour of the
sequence. -/
theorem Proc.bind_undefined {α β : Type} (p : Proc α) (k : α → Proc β) (out : String)
    (h : p out = .undefined) : (p >>= k) out = .undefined := by
  show Proc.bind p k out = _
  simp [Proc.bind, h]

/-! ## The three `printf` calls of the logger -/

/-- The opening `printf` with both decorations set. -/
theorem printf_open (c l out : String) :
    printf "%sIELog %s: " [.str (some c), .str (some l)] out =
      .returned () (out ++ c ++ "IELog " ++ l ++ ": ") := by
  simp [printf, vprintf, vformat, Formatted.prepend]
  apply String.ext
  simp [String.data_append]

/-- The closing `printf`. -/
theorem printf_close (f r out : String) :
    printf " [%s]%s\n" [.str (some f), .str (some r)] out =
      .returned () (out ++ " [" ++ f ++ "]" ++ r ++ "\n") := by
  simp [printf, vprintf, vformat, Formatted.prepend]
  apply String.ext
  simp [String.data_append]

/-- The opening `printf` with a null `ColorCode`. -/
theorem printf_open_null (l : Option String) (out : String) :
    printf "%sIELog %s: " [.str none, .str l] out = .undefined := by
  simp [printf, vprintf, vformat, Formatted.prepend]

/-! ## Format expansion -/

/-- An ordinary character is copied. -/
theorem vformat_cons_ordinary (c : Char) (rest : List Char) (args : List Arg) (hc : c ≠ '%') :
    vformat (c :: rest) args = (vformat rest args).prepend [c] := by
  rw [vformat.eq_def]
  simp [hc]

/-- The pair `%%` writes one `%` and reads no argument. -/
theorem vformat_percent_percent (rest : List Char) (args : List Arg) :
    vformat ('%' :: '%' :: rest) args = (vformat rest args).prepend ['%'] := by
  rw [vformat.eq_def]
  simp

/-- The start of a conversion with no argument left is undefined. -/
theorem vformat_conversion_no_args (d : Char) (rest : List Char) (hd : d ≠ '%') :
    vformat ('%' :: d :: rest) [] = .undefined := by
  rw [vformat.eq_def]
  simp [hd]

/-- A format that ends in a single `%` is undefined. -/
theorem vformat_lone_percent (args : List Arg) : vformat ['%'] args = .undefined := by
  rw [vformat.eq_def]
  simp

theorem prepend_ne_unmodelled (pre : List Char) (f : Formatted) (h : f ≠ .unmodelled) :
    f.prepend pre ≠ .unmodelled := by
  cases f <;> simp_all [Formatted.prepend]

/-- Without arguments every format is inside the model: its expansion is a
text or undefined, never unmodelled. -/
theorem vformat_no_args (l : List Char) : vformat l [] ≠ .unmodelled := by
  have key : ∀ (n : Nat) (l : List Char), l.length ≤ n → vformat l [] ≠ .unmodelled := by
    intro n
    induction n with
    | zero =>
      intro l hl
      have : l = [] := List.length_eq_zero.mp (Nat.le_zero.mp hl)
      subst this
      simp [vformat]
    | succ n ih =>
      intro l hl
      match l, hl with
      | [], _ => simp [vformat]
      | c :: rest, hl =>
        have hrest : rest.length ≤ n := by simpa using hl
        by_cases hc : c = '%'
        · subst hc
          match rest, hrest with
          | [], _ => rw [vformat_lone_percent]; simp
          | d :: rest1, hrest =>
            by_cases hd : d = '%'
            · subst hd
              rw [vformat_percent_percent]
              exact prepend_ne_unmodelled _ _ (ih rest1 (by simp at hrest; omega))
            · rw [vformat_conversion_no_args d rest1 hd]; simp
        · rw [vformat_cons_ordinary c rest [] hc]
          exact prepend_ne_unmodelled _ _ (ih rest hrest)
  exact key l.length l (Nat.le_refl _)

/-- A format without `%` expands to itself. -/
theorem vformat_plain (l : List Char) (args : List Arg) (h : '%' ∉ l) : vformat l args = .text l := by
  induction l with
  | nil => simp [vformat]
  | cons c rest ih =>
    have hc : c ≠ '%' := fun e => h (by simp [e])
    have hr : '%' ∉ rest := fun e => h (by simp [e])
    rw [vformat_cons_ordinary c rest args hc, ih hr]
    simp [Formatted.prepend]

/-! ## The logger -/

/-- With both decorations set and a format that expands to `body`, the logger
returns after appending the decorated line. -/
theorem IELog_line (LogLevel : Int) (color label FuncName Format : String) (Args : List Arg)
    (body : List Char) (out : String)
    (hsel : Private.levelDecoration LogLevel = (some color, some label))
    (hbody : vformat Format.data Args = .text body) :
    Private.IELog LogLevel FuncName Format Args out =
      .returned () (out ++ (color ++ "IELog " ++ label ++ ": " ++ String.mk body ++ " [" ++ FuncName ++ "]"
        ++ "\x1b[0m" ++ "\n")) := by
  unfold Private.IELog
  simp only [hsel]
  rw [Proc.bind_returned _ _ _ _ _ (printf_open color label out)]
  have hv : vprintf Format Args (out ++ color ++ "IELog " ++ label ++ ": ") =
      .returned () (out ++ color ++ "IELog " ++ label ++ ": " ++ String.mk body) := by
    simp [vprintf, hbody]
  rw [Proc.bind_returned _ _ _ _ _ hv, printf_close]
  simp [Private.ColorSpecifierReset, String.append_assoc]

/-- With both decorations set and a format whose expansion is undefined, the
logger has undefined behaviour. -/
theorem IELog_body_undefined (LogLevel : Int) (color label FuncName Format : String)
    (Args : List Arg) (out : String)
    (hsel : Private.levelDecoration LogLevel = (some color, some label))
    (hbody : vformat Format.data Args = .undefined) :
    Private.IELog LogLevel FuncName Format Args out = .undefined := by
  unfold Private.IELog
  simp only [hsel]
  rw [Proc.bind_returned _ _ _ _ _ (printf_open color label out)]
  apply Proc.bind_undefined
  simp [vprintf, hbody]

/-- With null decorations the logger has undefined behaviour, whatever the
format. -/
theorem IELog_null_decoration (LogLevel : Int) (FuncName Format : String) (Args : List Arg)
    (out : String) (hsel : Private.levelDecoration LogLevel = (none, none)) :
    Private.IELog LogLevel FuncName Format Args out = .undefined := by
  unfold Private.IELog
  simp only [hsel]
  exact Proc.bind_undefined _ _ _ (printf_open_null none out)


/-! ## The severity table -/

theorem levelDecoration_error :
    Private.levelDecoration (-1) = (some "\x1b[31m", some "Error") := by decide
theorem levelDecoration_log :
    Private.levelDecoration 0 = (some "\x1b[0m", some "Log") := by decide
theorem levelDecoration_success :
    Private.levelDecoration 1 = (some "\x1b[32m", some "Success") := by decide
theorem levelDecoration_warning :
    Private.levelDecoration 2 = (some "\x1b[33m", some "Warning") := by decide

theorem levelDecoration_other (LogLevel : Int) (h1 : LogLevel ≠ -1) (h2 : LogLevel ≠ 0)
    (h3 : LogLevel ≠ 1) (h4 : LogLevel ≠ 2) :
    Private.levelDecoration LogLevel = (none, none) := by
  simp [Private.levelDecoration, h1, h2, h3, h4]

/-! ## The coercion and the assertion helper -/

/-- The logging coercion of a result whose message expands, as a format
without arguments, to `body`. -/
theorem operatorBool_logging_text (r : IEResult) (out : String) (body : List Char)
    (hbody : vformat (c_str r.Message).data [] = .text body) :
    IEResult.operatorBool true r out =
      if r.Type_ ≤ 0 then
        .aborted (out ++ logLine "\x1b[31m" "Error" (String.mk body) r.CallerContext.function_name)
      else if r.Type_ > 1 then
        .returned false
          (out ++ logLine "\x1b[33m" "Warning" (String.mk body) r.CallerContext.function_name)
      else
        .returned true
          (out ++ logLine "\x1b[32m" "Success" (String.mk body) r.CallerContext.function_name) := by
  unfold IEResult.operatorBool logLine
  by_cases h0 : r.Type_ ≤ 0
  · simp only [h0, if_true]
    rw [Proc.bind_returned _ _ _ _ _
      (IELog_line (-1) _ _ r.CallerContext.function_name _ [] _ out levelDecoration_error hbody)]
    rfl
  · by_cases h1 : r.Type_ > 1
    · simp only [h0, h1, if_true, if_false]
      rw [Proc.bind_returned _ _ _ _ _
        (IELog_line 2 _ _ r.CallerContext.function_name _ [] _ out levelDecoration_warning hbody)]
      rfl
    · simp only [h0, h1, if_true, if_false]
      rw [Proc.bind_returned _ _ _ _ _
        (IELog_line 1 _ _ r.CallerContext.function_name _ [] _ out levelDecoration_success hbody)]
      rfl

/-- A message without `%` is printed as it stands (up to its first NUL): the
coercion then aborts, returns false or returns true by the code, after one
line of the matching severity. -/
theorem operatorBool_logging_plain (r : IEResult) (out : String)
    (hplain : '%' ∉ (c_str r.Message).data) :
    IEResult.operatorBool true r out =
      if r.Type_ ≤ 0 then
        .aborted (out ++ logLine "\x1b[31m" "Error" (c_str r.Message) r.CallerContext.function_name)
      else if r.Type_ > 1 then
        .returned false
          (out ++ logLine "\x1b[33m" "Warning" (c_str r.Message) r.CallerContext.function_name)
      else
        .returned true
          (out ++ logLine "\x1b[32m" "Success" (c_str r.Message) r.CallerContext.function_name) :=
  operatorBool_logging_text r out _ (vformat_plain (c_str r.Message).data [] hplain)

/-- The logging coercion of a result whose message has an undefined
expansion has undefined behaviour, whatever the code. -/
theorem operatorBool_logging_conversion (r : IEResult) (out : String)
    (hbody : vformat (c_str r.Message).data [] = .undefined) :
    IEResult.operatorBool true r out = .undefined := by
  unfold IEResult.operatorBool
  by_cases h0 : r.Type_ ≤ 0
  · simp only [h0, if_true]
    exact Proc.bind_undefined _ _ _
      (IELog_body_undefined (-1) _ _ _ _ [] out levelDecoration_error hbody)
  · by_cases h1 : r.Type_ > 1
    · simp only [h0, h1, if_true, if_false]
      exact Proc.bind_undefined _ _ _
        (IELog_body_undefined 2 _ _ _ _ [] out levelDecoration_warning hbody)
    · simp only [h0, h1, if_true, if_false]
      exact Proc.bind_undefined _ _ _
        (IELog_body_undefined 1 _ _ _ _ [] out levelDecoration_success hbody)

/-- The logging coercion either has undefined behaviour, its message holding
a conversion, or writes one line whose body is the expansion of the message
and then aborts, returns false or returns true by the code. -/
theorem operatorBool_logging_cases (r : IEResult) (out : String) :
    IEResult.operatorBool true r out = .undefined ∨
    ∃ body : String,
      IEResult.operatorBool true r out =
        if r.Type_ ≤ 0 then
          .aborted (out ++ logLine "\x1b[31m" "Error" body r.CallerContext.function_name)
        else if r.Type_ > 1 then
          .returned false (out ++ logLine "\x1b[33m" "Warning" body r.CallerContext.function_name)
        else
          .returned true (out ++ logLine "\x1b[32m" "Success" body r.CallerContext.function_name) := by
  cases hv : vformat (c_str r.Message).data [] with
  | text body => exact Or.inr ⟨String.mk body, operatorBool_logging_text r out body hv⟩
  | undefined => exact Or.inl (operatorBool_logging_conversion r out hv)
  | unmodelled => exact absurd hv (vformat_no_args _)

/-- The coercion of the silent build, branch by branch. -/
theorem operatorBool_silent (r : IEResult) (out : String) :
    IEResult.operatorBool false r out =
      if r.Type_ ≤ 0 then .aborted out
      else if r.Type_ > 1 then .returned false out else .returned true out := by
  unfold IEResult.operatorBool
  by_cases h0 : r.Type_ ≤ 0
  · simp only [h0, if_true]; rfl
  · by_cases h1 : r.Type_ > 1
    · simp only [h0, h1, if_true, if_false]; rfl
    · simp only [h0, h1, if_true, if_false]; rfl
/-- Only the code 1 lets the coercion return true, in either build. -/
theorem operatorBool_true_only_success (logging : Bool) (r : IEResult) (out out1 : String)
    (h : IEResult.operatorBool logging r out = .returned true out1) : r.Type_ = 1 := by
  cases logging with
  | false =>
    rw [operatorBool_silent] at h
    by_cases h0 : r.Type_ ≤ 0
    · simp [h0] at h
    · by_cases h1 : r.Type_ > 1
      · simp [h0, h1] at h
      · omega
  | true =>
    cases hv : vformat (c_str r.Message).data [] with
    | text body =>
      rw [operatorBool_logging_text r out body hv] at h
      by_cases h0 : r.Type_ ≤ 0
      · simp [h0] at h
      · by_cases h1 : r.Type_ > 1
        · simp [h0, h1] at h
        · omega
    | undefined => rw [operatorBool_logging_conversion r out hv] at h; cases h
    | unmodelled => exact absurd hv (vformat_no_args _)

/-- Two coercions of a non-fatal result whose message has no `%` return the
same boolean twice and append the same line twice. -/
theorem coerceTwice_plain (r : IEResult) (out : String)
    (hplain : '%' ∉ (c_str r.Message).data) (hpos : 0 < r.Type_) :
    coerceTwice true r out =
      if r.Type_ > 1 then
        .returned (false, false)
          (out ++ logLine "\x1b[33m" "Warning" (c_str r.Message) r.CallerContext.function_name
            ++ logLine "\x1b[33m" "Warning" (c_str r.Message) r.CallerContext.function_name)
      else
        .returned (true, true)
          (out ++ logLine "\x1b[32m" "Success" (c_str r.Message) r.CallerContext.function_name
            ++ logLine "\x1b[32m" "Success" (c_str r.Message) r.CallerContext.function_name) := by
  have h0 : ¬ r.Type_ ≤ 0 := by omega
  unfold coerceTwice
  by_cases h1 : r.Type_ > 1
  · have e := fun o => operatorBool_logging_plain r o hplain
    simp only [h0, h1, if_true, if_false] at e ⊢
    rw [Proc.bind_returned _ _ _ _ _ (e out), Proc.bind_returned _ _ _ _ _ (e _)]
    rfl
  · have e := fun o => operatorBool_logging_plain r o hplain
    simp only [h0, h1, if_true, if_false] at e ⊢
    rw [Proc.bind_returned _ _ _ _ _ (e out), Proc.bind_returned _ _ _ _ _ (e _)]
    rfl

/-- Under `NDEBUG` the helper is its argument. -/
theorem IEAssert_release (ENABLE_IE_ASSERT : Bool) (Expression : Proc Bool) (out : String) :
    IEAssert ENABLE_IE_ASSERT true Expression out = Expression out := by
  cases ENABLE_IE_ASSERT
  · simp [IEAssert]
  · simp only [IEAssert, assert, if_true]
    rfl

/-- Without `ENABLE_IE_ASSERT` the helper is its argument. -/
theorem IEAssert_off (NDEBUG : Bool) (Expression : Proc Bool) :
    IEAssert false NDEBUG Expression = Expression := by
  simp [IEAssert]

/-- With `assert` active and a truthy first evaluation, the helper is a second
evaluation of its argument on the output of the first. -/
theorem IEAssert_debug_truthy (Expression : Proc Bool) (out out1 : String)
    (h : Expression out = .returned true out1) :
    IEAssert true false Expression out = Expression out1 := by
  simp only [IEAssert, assert, if_true, Bool.false_eq_true, if_false]
  rw [Proc.bind_returned _ _ out out1 ()]
  rw [Proc.bind_returned _ _ _ _ _ h]
  rfl


/-- Every selector other than -1, 0, 1 and 2 sends null decorations to
`printf`. -/
theorem IELog_unrecognised (LogLevel : Int) (FuncName Format : String) (Args : List Arg)
    (out : String) (h1 : LogLevel ≠ -1) (h2 : LogLevel ≠ 0) (h3 : LogLevel ≠ 1)
    (h4 : LogLevel ≠ 2) :
    Private.IELog LogLevel FuncName Format Args out = .undefined :=
  IELog_null_decoration LogLevel FuncName Format Args out
    (levelDecoration_other LogLevel h1 h2 h3 h4)

/-- No defined run of the coercion of a fatal code returns a boolean. -/
theorem operatorBool_fatal_never_returns (logging : Bool) (r : IEResult) (out out1 : String)
    (b : Bool) (h : r.Type_ ≤ 0) :
    IEResult.operatorBool logging r out ≠ .returned b out1 := by
  cases logging with
  | false => rw [operatorBool_silent]; simp [h]
  | true =>
    cases hv : vformat (c_str r.Message).data [] with
    | text body => rw [operatorBool_logging_text r out body hv]; simp [h]
    | undefined => rw [operatorBool_logging_conversion r out hv]; simp
    | unmodelled => exact absurd hv (vformat_no_args _)

/-! ## The claims of the specification -/

/-- Claim C1 (fatal codes end the process through `abort` after one Error log
call, for every message), with the input where the code departs from it.  For
the result `(Fail, "%s")` the coercion hands the message to the logger as its
format: after the red `IELog Error: ` opening, `vprintf` meets the conversion
`%s` with no argument to read, and the behaviour is undefined, so the call of
`abort` that follows is not guaranteed.  That is the only way out of the
claim: for every code `-n` and every message, the coercion either has
undefined behaviour or ends in `abort` after exactly one Error line carrying
the origin's function name, its body the expansion of the message. -/
theorem operatorBool_fatal_conversion_message (n : Nat) (msg : String) (loc : SourceLocation) (out : String) :
    IEResult.operatorBool true ⟨IEResult.Fail, "%s", loc⟩ out = .undefined ∧
    (IEResult.operatorBool true ⟨-(n : Int), msg, loc⟩ out = .undefined ∨
      ∃ body : String,
        IEResult.operatorBool true ⟨-(n : Int), msg, loc⟩ out =
          .aborted (out ++ logLine "\x1b[31m" "Error" body loc.function_name)) := by
  refine ⟨operatorBool_logging_conversion _ out
    (show vformat (c_str "%s").data [] = .undefined by decide), ?_⟩
  rcases operatorBool_logging_cases ⟨-(n : Int), msg, loc⟩ out with h | ⟨body, h⟩
  · exact Or.inl h
  · refine Or.inr ⟨body, ?_⟩
    have h0 : -(n : Int) ≤ 0 := by omega
    rw [h]
    simp [h0]

/-- Claim C2 (a Success result coerces to true after one Success line, for
any message), with the input where the code departs from it.  For the result
`(Success, "%s")` the message is the logger's format and its `%s` has no
argument: the behaviour is undefined and no `true` is guaranteed.  For every
message, the coercion either has undefined behaviour or returns true after
exactly one green Success line carrying the origin's function name. -/
theorem operatorBool_success_conversion_message (msg : String) (loc : SourceLocation) (out : String) :
    IEResult.operatorBool true ⟨IEResult.Success, "%s", loc⟩ out = .undefined ∧
    (IEResult.operatorBool true ⟨IEResult.Success, msg, loc⟩ out = .undefined ∨
      ∃ body : String,
        IEResult.operatorBool true ⟨IEResult.Success, msg, loc⟩ out =
          .returned true (out ++ logLine "\x1b[32m" "Success" body loc.function_name)) := by
  refine ⟨operatorBool_logging_conversion _ out
    (show vformat (c_str "%s").data [] = .undefined by decide), ?_⟩
  rcases operatorBool_logging_cases ⟨IEResult.Success, msg, loc⟩ out with h | ⟨body, h⟩
  · exact Or.inl h
  · refine Or.inr ⟨body, ?_⟩
    rw [h]
    simp [IEResult.Success]

/-- Claim C3 (a code above 1 coerces to false after one Warning line, without
ending the process, for any message), with the input where the code departs
from it.  For the result `(InvalidArgument, "%s")` the message is the
logger's format and its `%s` has no argument: the behaviour is undefined.
For every code `n + 2` and every message, the coercion either has undefined
behaviour or returns false after exactly one yellow Warning line carrying the
origin's function name. -/
theorem operatorBool_warning_conversion_message (n : Nat) (msg : String) (loc : SourceLocation) (out : String) :
    IEResult.operatorBool true ⟨IEResult.InvalidArgument, "%s", loc⟩ out = .undefined ∧
    (IEResult.operatorBool true ⟨(n : Int) + 2, msg, loc⟩ out = .undefined ∨
      ∃ body : String,
        IEResult.operatorBool true ⟨(n : Int) + 2, msg, loc⟩ out =
          .returned false (out ++ logLine "\x1b[33m" "Warning" body loc.function_name)) := by
  refine ⟨operatorBool_logging_conversion _ out
    (show vformat (c_str "%s").data [] = .undefined by decide), ?_⟩
  rcases operatorBool_logging_cases ⟨(n : Int) + 2, msg, loc⟩ out with h | ⟨body, h⟩
  · exact Or.inl h
  · refine Or.inr ⟨body, ?_⟩
    have h0 : ¬ ((n : Int) + 2 ≤ 0) := by omega
    have h1 : (n : Int) + 2 > 1 := by omega
    rw [h]
    simp [h0, h1]

/-- Claim C4.  `a == b` returns true exactly when the two codes are equal,
whatever the messages and origins, and `a != b` returns its negation; both
return with standard output untouched, fatal codes included.  The two results
`(Success, "a")` and `(Success, "b")` are equal, `(Success)` and `(Fail)` are
not. -/
theorem operatorEq_compares_code_only (a b : IEResult) (out : String) :
    (∃ v : Bool,
      IEResult.operatorEq a b out = .returned v out ∧
      (v = true ↔ a.Type_ = b.Type_) ∧
      IEResult.operatorNe a b out = .returned (!v) out) ∧
    (∀ l1 l2 : SourceLocation,
      IEResult.operatorEq ⟨IEResult.Success, "a", l1⟩ ⟨IEResult.Success, "b", l2⟩ out =
        .returned true out ∧
      IEResult.operatorEq ⟨IEResult.Success, "", l1⟩ ⟨IEResult.Fail, "", l2⟩ out =
        .returned false out) := by
  refine ⟨⟨a.Type_ == b.Type_, rfl, ?_, rfl⟩, ?_⟩
  · simp
  · intro l1 l2
    exact ⟨rfl, rfl⟩

/-- Claim C5.  For each of the four severity selectors, with its colour and
label, every function name and every format whose expansion against the
arguments is the body `m`, the logger returns having appended to standard
output exactly colour, `IELog `, label, `: `, `m`, ` [`, the function name,
`]`, the reset escape and a newline. -/
theorem IELog_writes_decorated_line (LogLevel : Int) (color label FuncName Format m : String)
    (Args : List Arg) (out : String)
    (hsel : (LogLevel, color, label) ∈
      [((-1 : Int), "\x1b[31m", "Error"), (0, "\x1b[0m", "Log"),
       (1, "\x1b[32m", "Success"), (2, "\x1b[33m", "Warning")])
    (hbody : vformat Format.data Args = .text m.data) :
    Private.IELog LogLevel FuncName Format Args out =
      .returned ()
        (out ++ (color ++ "IELog " ++ label ++ ": " ++ m ++ " [" ++ FuncName ++ "]"
          ++ "\x1b[0m" ++ "\n")) := by
  have hline := fun h => IELog_line LogLevel color label FuncName Format Args m.data out h hbody
  simp only [List.mem_cons, Prod.mk.injEq, List.mem_singleton, List.not_mem_nil, or_false] at hsel
  rcases hsel with ⟨rfl, rfl, rfl⟩ | ⟨rfl, rfl, rfl⟩ | ⟨rfl, rfl, rfl⟩ | ⟨rfl, rfl, rfl⟩
  · exact hline levelDecoration_error
  · exact hline levelDecoration_log
  · exact hline levelDecoration_success
  · exact hline levelDecoration_warning

/-- The logger scenario of the specification: the Error entry point with
format `value=%d` and argument 5, at a location whose function name is
`doWork`, starting from an empty standard output. -/
theorem IELog_writes_decorated_line_witness :
    vformat "value=%d".data [Arg.int 5] = .text "value=5".data ∧
    IELOG_ERROR ⟨"work.cpp", 7, 5, "doWork"⟩ "value=%d" [Arg.int 5] "" =
      .returned () "\x1b[31mIELog Error: value=5 [doWork]\x1b[0m\n" :=
  ⟨by decide,
   (IELog_writes_decorated_line (-1) "\x1b[31m" "Error" "doWork" "value=%d" "value=5"
      [Arg.int 5] "" (by decide) (by decide)).trans (by decide)⟩

/-- Claim C6 (the coercion without result logging is the logging coercion
with its output erased, for every result), with the input where the code
departs from it.  For the result `(Success, "%s")` the silent build returns
true and writes nothing, while the logging build hands the message to the
logger as its format and has undefined behaviour, its `%s` having no
argument: erasing the output of the logging run does not give the silent
run.  The silent side of the claim holds as stated: for every result the
silent coercion is the specification's function of the code alone (`≤ 0`
ends the process, `1` returns true, anything else returns false) with
standard output untouched, whatever message and origin the result was
constructed from; and every logging run that is defined is the silent run
once its output is erased. -/
theorem operatorBool_silent_not_erasure (r : IEResult) (loc : SourceLocation) (out : String) :
    (IEResult.operatorBool true ⟨IEResult.Success, "%s", loc⟩ out = .undefined ∧
      IEResult.operatorBool false ⟨IEResult.Success, "%s", loc⟩ out = .returned true out ∧
      (IEResult.operatorBool true ⟨IEResult.Success, "%s", loc⟩ out).withStdout out ≠
        IEResult.operatorBool false ⟨IEResult.Success, "%s", loc⟩ out) ∧
    IEResult.operatorBool false r out = silentCoercion r.Type_ out ∧
    (∀ (msg : String) (origin : SourceLocation),
      IEResult.operatorBool false (IEResult.construct false r.Type_ msg origin) out =
        IEResult.operatorBool false r out) ∧
    (IEResult.operatorBool true r out = .undefined ∨
      (IEResult.operatorBool true r out).withStdout out = IEResult.operatorBool false r out) := by
  have hlog : IEResult.operatorBool true ⟨IEResult.Success, "%s", loc⟩ out = .undefined :=
    operatorBool_logging_conversion _ out
      (show vformat (c_str "%s").data [] = .undefined by decide)
  have hsilent : IEResult.operatorBool false ⟨IEResult.Success, "%s", loc⟩ out =
      .returned true out := by
    rw [operatorBool_silent]
    simp [IEResult.Success]
  refine ⟨⟨hlog, hsilent, ?_⟩, ?_, ?_, ?_⟩
  · rw [hlog, hsilent]
    simp [Outcome.withStdout]
  · rw [operatorBool_silent]
    unfold silentCoercion
    by_cases h0 : r.Type_ ≤ 0
    · simp [h0]
    · by_cases h1 : r.Type_ > 1
      · have : r.Type_ ≠ 1 := by omega
        simp [h0, h1, this]
      · have : r.Type_ = 1 := by omega
        simp [this]
  · intro msg origin
    rw [operatorBool_silent, operatorBool_silent]
    simp [IEResult.construct]
  · cases hv : vformat (c_str r.Message).data [] with
    | text body =>
      right
      rw [operatorBool_logging_text r out body hv, operatorBool_silent]
      by_cases h0 : r.Type_ ≤ 0
      · simp [h0, Outcome.withStdout]
      · by_cases h1 : r.Type_ > 1
        · simp [h0, h1, Outcome.withStdout]
        · simp [h0, h1, Outcome.withStdout]
    | undefined => exact Or.inl (operatorBool_logging_conversion r out hv)
    | unmodelled => exact absurd hv (vformat_no_args _)

/-- Claim C7 (an unrecognised severity selector prints a line with empty
decorations), at the selector 99.  The `default` label leaves `ColorCode` and
`LevelString` null and the first `printf` passes both to `%s`: the behaviour
is undefined for every function name, format and argument list, and no line
with empty decorations is guaranteed. -/
theorem IELog_unrecognised_selector (FuncName Format : String) (Args : List Arg) (out : String) :
    Private.IELog 99 FuncName Format Args out = .undefined :=
  IELog_null_decoration 99 FuncName Format Args out (by decide)

/-- Claim C8 (coercing a non-fatal result twice gives the same boolean and two
identical lines), with the input where the code departs from it.  For the
result `(Unimplemented, "%d")` the first coercion already has undefined
behaviour, the message being the logger's format with a `%d` and no argument:
two coercions guarantee neither two booleans nor two equal lines.  For every
code `n + 1` and every message, two coercions either have undefined behaviour
or return the boolean of a single coercion twice and append its line twice. -/
theorem coerceTwice_conversion_message (n : Nat) (msg : String) (loc : SourceLocation) (out : String) :
    coerceTwice true ⟨IEResult.Unimplemented, "%d", loc⟩ out = .undefined ∧
    (coerceTwice true ⟨(n : Int) + 1, msg, loc⟩ out = .undefined ∨
      ∃ (b : Bool) (line : String),
        IEResult.operatorBool true ⟨(n : Int) + 1, msg, loc⟩ out = .returned b (out ++ line) ∧
        coerceTwice true ⟨(n : Int) + 1, msg, loc⟩ out =
          .returned (b, b) (out ++ line ++ line)) := by
  constructor
  · unfold coerceTwice
    exact Proc.bind_undefined _ _ _ (operatorBool_logging_conversion _ out
      (show vformat (c_str "%d").data [] = .undefined by decide))
  · have h0 : ¬ ((n : Int) + 1 ≤ 0) := by omega
    cases hv : vformat (c_str msg).data [] with
    | text body =>
      right
      have e := fun o => operatorBool_logging_text ⟨(n : Int) + 1, msg, loc⟩ o body hv
      unfold coerceTwice
      by_cases h1 : (n : Int) + 1 > 1
      · simp only [h0, h1, if_true, if_false] at e
        refine ⟨false, logLine "\x1b[33m" "Warning" (String.mk body) loc.function_name, e out, ?_⟩
        rw [Proc.bind_returned _ _ _ _ _ (e out), Proc.bind_returned _ _ _ _ _ (e _)]
        rfl
      · simp only [h0, h1, if_true, if_false] at e
        refine ⟨true, logLine "\x1b[32m" "Success" (String.mk body) loc.function_name, e out, ?_⟩
        rw [Proc.bind_returned _ _ _ _ _ (e out), Proc.bind_returned _ _ _ _ _ (e _)]
        rfl
    | undefined =>
      left
      unfold coerceTwice
      exact Proc.bind_undefined _ _ _ (operatorBool_logging_conversion _ out hv)
    | unmodelled => exact absurd hv (vformat_no_args _)

/-- Claim C9 (the message itself is the body of the line, also when it holds
a `%`), at the input where the code departs from it.  For the result
`(InvalidArgument, "100%% done")` the coercion returns false after writing a
Warning line whose body is `100% done`, one `%` short of the message: the
message went through `vprintf` as a format.  The line the claim describes,
with body `100%% done`, is not what is written. -/
theorem operatorBool_message_read_as_format (loc : SourceLocation) (out : String) :
    IEResult.operatorBool true ⟨IEResult.InvalidArgument, "100%% done", loc⟩ out =
      .returned false
        (out ++ ("\x1b[33mIELog Warning: 100% done [" ++ loc.function_name ++ "]\x1b[0m\n")) ∧
    IEResult.operatorBool true ⟨IEResult.InvalidArgument, "100%% done", loc⟩ out ≠
      .returned false
        (out ++ ("\x1b[33mIELog Warning: 100%% done [" ++ loc.function_name
          ++ "]\x1b[0m\n")) := by
  have h := operatorBool_logging_text ⟨IEResult.InvalidArgument, "100%% done", loc⟩ out
    "100% done".data
    (show vformat (c_str "100%% done").data [] = .text "100% done".data by decide)
  have e : IEResult.operatorBool true ⟨IEResult.InvalidArgument, "100%% done", loc⟩ out =
      .returned false
        (out ++ ("\x1b[33mIELog Warning: 100% done [" ++ loc.function_name
          ++ "]\x1b[0m\n")) := by
    rw [h]
    simp only [IEResult.InvalidArgument, logLine]
    simp
    apply String.ext
    simp [String.data_append]
  refine ⟨e, ?_⟩
  rw [e]
  intro hc
  simp only [Outcome.returned.injEq, true_and] at hc
  have hd := congrArg String.data hc
  simp [String.data_append] at hd

/-- Claim C10 (`IEAssert(e)` evaluates `e` once and has the effects of `e`
alone), at the input where the code departs from it.  With `ENABLE_IE_ASSERT`
defined and `assert` active, the coercion of the result `(Success, "ok")`
alone returns true after one Success line, while `IEAssert` of the same
expression returns true after two: the expression is evaluated once inside
`assert` and once more for the value, and the two outcomes differ. -/
theorem IEAssert_evaluates_twice (loc : SourceLocation) (out : String) :
    IEResult.operatorBool true ⟨IEResult.Success, "ok", loc⟩ out =
      .returned true
        (out ++ ("\x1b[32mIELog Success: ok [" ++ loc.function_name ++ "]\x1b[0m\n")) ∧
    IEAssert true false (IEResult.operatorBool true ⟨IEResult.Success, "ok", loc⟩) out =
      .returned true
        (out ++ ("\x1b[32mIELog Success: ok [" ++ loc.function_name ++ "]\x1b[0m\n")
          ++ ("\x1b[32mIELog Success: ok [" ++ loc.function_name ++ "]\x1b[0m\n")) ∧
    IEAssert true false (IEResult.operatorBool true ⟨IEResult.Success, "ok", loc⟩) out ≠
      IEResult.operatorBool true ⟨IEResult.Success, "ok", loc⟩ out := by
  have e : ∀ o, IEResult.operatorBool true ⟨IEResult.Success, "ok", loc⟩ o =
      .returned true
        (o ++ ("\x1b[32mIELog Success: ok [" ++ loc.function_name ++ "]\x1b[0m\n")) := by
    intro o
    have h := operatorBool_logging_text ⟨IEResult.Success, "ok", loc⟩ o "ok".data
      (show vformat (c_str "ok").data [] = .text "ok".data by decide)
    rw [h]
    simp only [IEResult.Success, logLine]
    simp
    apply String.ext
    simp [String.data_append]
  have e2 : IEAssert true false (IEResult.operatorBool true ⟨IEResult.Success, "ok", loc⟩) out =
      .returned true
        (out ++ ("\x1b[32mIELog Success: ok [" ++ loc.function_name ++ "]\x1b[0m\n")
          ++ ("\x1b[32mIELog Success: ok [" ++ loc.function_name ++ "]\x1b[0m\n")) := by
    rw [IEAssert_debug_truthy _ out _ (e out), e]
  refine ⟨e out, e2, ?_⟩
  rw [e2, e out]
  intro hc
  simp only [Outcome.returned.injEq, true_and] at hc
  have hd := congrArg String.length hc
  simp [String.length_append] at hd
  exact absurd hd.2 (by decide)
